import Mathlib

/-!
Verification of the device-control core of `kasa-internal`
(`src/internal/kasa/kasa.go`), shallowly embedded in Lean.

Bytes are modelled as `Nat` with explicit `% 256` truncation exactly where
Go converts an `int` to a `byte`; Go `int` values stay untruncated, as in
the source.
-/

namespace Kasa

/-- Go `byte(b)`: truncation of an `int` value to 8 bits. -/
def byteOf (n : Nat) : Nat := n % 256

/-- Go `binary.BigEndian.PutUint32 res (uint32 n)` on a fresh 4-byte slice:
the four big-endian base-256 digits of `n % 2^32`. -/
def putUint32BE (n : Nat) : List Nat :=
  [n % 2 ^ 32 / 2 ^ 24 % 256, n % 2 ^ 32 / 2 ^ 16 % 256,
   n % 2 ^ 32 / 2 ^ 8 % 256, n % 2 ^ 32 % 256]

/-- The loop of `encrypt` in kasa.go:
`b := key ^ int(bx[i]); key = b; res = append(res, byte(b))`.
The running key stays an untruncated `int`; only the appended byte is
truncated. -/
def encLoop (key : Nat) : List Nat → List Nat
  | [] => []
  | p :: rest => byteOf (key ^^^ p) :: encLoop (key ^^^ p) rest

/-- Function `encrypt` from kasa.go: a 4-byte big-endian length prefix followed by
the autokey ciphertext with initial key 171. -/
def encrypt (bx : List Nat) : List Nat :=
  putUint32BE bx.length ++ encLoop 171 bx

/-- The loop of `decrypt` in kasa.go:
`b := key ^ int(bx[i]); key = int(bx[i]); res = append(res, byte(b))`,
starting at index 4. -/
def decLoop (key : Nat) : List Nat → List Nat
  | [] => []
  | c :: rest => byteOf (key ^^^ c) :: decLoop c rest

/-- Function `decrypt` from kasa.go: skip the first 4 bytes unconditionally, then
run the inverse autokey stream with initial key 171. -/
def decrypt (bx : List Nat) : List Nat :=
  decLoop 171 (bx.drop 4)

/-- The encode recurrence exactly as the spec words it:
`c = key XOR p`; append `c`; `key := c` (no separate truncation step). -/
def specAutokey (key : Nat) : List Nat → List Nat
  | [] => []
  | p :: rest => (key ^^^ p) :: specAutokey (key ^^^ p) rest

/-- The value of a 4-byte big-endian digit list. -/
def beUint32 : List Nat → Nat
  | [a, b, c, d] => ((a * 256 + b) * 256 + c) * 256 + d
  | _ => 0

theorem xor_lt_256 {x y : Nat} (hx : x < 256) (hy : y < 256) : x ^^^ y < 256 := by
  have h : Nat.bitwise bne x y < 2 ^ 8 := Nat.bitwise_lt hx hy
  exact h

theorem decLoop_encLoop (bx : List Nat) : ∀ key, key < 256 → (∀ b ∈ bx, b < 256) →
    decLoop key (encLoop key bx) = bx := by
  induction bx with
  | nil => intro key _ _; rfl
  | cons p rest ih =>
    intro key hk hbx
    have hp : p < 256 := hbx p (List.mem_cons_self _ _)
    have hb : key ^^^ p < 256 := xor_lt_256 hk hp
    have hrest : ∀ b ∈ rest, b < 256 := fun b hbmem => hbx b (List.mem_cons_of_mem _ hbmem)
    simp only [encLoop, decLoop, byteOf, Nat.mod_eq_of_lt hb, Nat.xor_cancel_left,
      Nat.mod_eq_of_lt hp]
    rw [ih (key ^^^ p) hb hrest]

theorem putUint32BE_length (n : Nat) : (putUint32BE n).length = 4 := rfl

/-- C1: decoding the encoding of any byte sequence (each element below 256),
including the empty one, returns it exactly: `decrypt (encrypt bx) = bx`. -/
theorem C1_decode_encode (bx : List Nat) (hbx : ∀ b ∈ bx, b < 256) :
    decrypt (encrypt bx) = bx := by
  unfold decrypt encrypt
  rw [show (4 : Nat) = (putUint32BE bx.length).length from rfl, List.drop_left]
  exact decLoop_encLoop bx 171 (by norm_num) hbx

/-- Witness for C1 at the concrete byte sequence `[1, 171, 255]`. -/
theorem C1_decode_encode_witness :
    (∀ b ∈ [1, 171, 255], b < 256) ∧ decrypt (encrypt [1, 171, 255]) = [1, 171, 255] :=
  ⟨by decide, C1_decode_encode [1, 171, 255] (by decide)⟩

theorem encLoop_eq_specAutokey (bx : List Nat) : ∀ key, key < 256 → (∀ b ∈ bx, b < 256) →
    encLoop key bx = specAutokey key bx := by
  induction bx with
  | nil => intro key _ _; rfl
  | cons p rest ih =>
    intro key hk hbx
    have hp : p < 256 := hbx p (List.mem_cons_self _ _)
    have hb : key ^^^ p < 256 := xor_lt_256 hk hp
    have hrest : ∀ b ∈ rest, b < 256 := fun b hbmem => hbx b (List.mem_cons_of_mem _ hbmem)
    simp only [encLoop, specAutokey, byteOf, Nat.mod_eq_of_lt hb]
    exact congrArg _ (ih (key ^^^ p) hb hrest)

theorem beUint32_putUint32BE (n : Nat) (h : n < 2 ^ 32) :
    beUint32 (putUint32BE n) = n := by
  simp only [putUint32BE, beUint32]
  omega

/-- C6: `encrypt` outputs the 4-byte big-endian plaintext length followed by
the autokey ciphertext with initial key 171 where each output byte becomes
the next key; the empty plaintext yields exactly the four zero bytes. -/
theorem C6_encode_spec (bx : List Nat) (hbx : ∀ b ∈ bx, b < 256)
    (hlen : bx.length < 2 ^ 32) :
    encrypt bx = putUint32BE bx.length ++ specAutokey 171 bx ∧
    beUint32 (putUint32BE bx.length) = bx.length ∧
    encrypt ([] : List Nat) = [0, 0, 0, 0] := by
  refine ⟨?_, beUint32_putUint32BE _ hlen, rfl⟩
  unfold encrypt
  rw [encLoop_eq_specAutokey bx 171 (by norm_num) hbx]

/-- Witness for C6 at the concrete byte sequence `[10, 20, 30]`. -/
theorem C6_encode_spec_witness :
    (∀ b ∈ [10, 20, 30], b < 256) ∧ [10, 20, 30].length < 2 ^ 32 ∧
    (encrypt [10, 20, 30] = putUint32BE 3 ++ specAutokey 171 [10, 20, 30] ∧
     beUint32 (putUint32BE 3) = 3 ∧
     encrypt ([] : List Nat) = [0, 0, 0, 0]) :=
  ⟨by decide, by decide, C6_encode_spec [10, 20, 30] (by decide) (by decide)⟩

/-- C10: `decrypt` is total and returns the empty sequence on every input of
length at most 4, including the empty input and a truncated length prefix. -/
theorem C10_decode_short (bx : List Nat) (h : bx.length ≤ 4) : decrypt bx = [] := by
  unfold decrypt
  rw [List.drop_eq_nil_of_le h]
  rfl

/-- Witness for C10 at the concrete input `[0, 0, 0, 4]`. -/
theorem C10_decode_short_witness :
    [0, 0, 0, 4].length ≤ 4 ∧ decrypt [0, 0, 0, 4] = [] :=
  ⟨by decide, C10_decode_short [0, 0, 0, 4] (by decide)⟩

/-- The `plug` struct from kasa.go.  The mutex field `mtx` is omitted: the
embedding is sequential, so the lock guards nothing here; `lastCmd` is a
timestamp in milliseconds. -/
structure Plug where
  IPAddress : String
  TriggerKey : Int
  Model : String
  Name : String
  On : Bool
  lastCmd : Nat
  deriving DecidableEq, Repr

/-- Network oracle standing for the dial/write/read exchange of `sendCmd`:
given the device address and the bytes written, it yields either a Go error
(from dial, deadline, write or read) or the raw bytes read back. -/
abbrev Net := String → List Nat → Except String (List Nat)

/-- Go `[]byte(s)` for the ASCII command strings used here. -/
def strBytes (s : String) : List Nat := s.data.map Char.toNat

def errOf : Except String (List Nat) → Option String
  | .ok _ => none
  | .error e => some e

/-- Function `sendCmd` from kasa.go, with the TCP exchange abstracted by `net` and
wall-clock time by `tExit` (the time at which the deferred
`p.lastCmd = time.Now()` runs): the payload written is `encrypt(data)`, the
result is `decrypt` of the bytes read, and `lastCmd` is updated on every
exit path.  The 500 ms rate-limit sleep is modelled separately by
`rateDelay`/`sendTime` below, since it only affects timing. -/
def sendCmd (net : Net) (tExit : Nat) (p : Plug) (data : String) :
    Plug × Except String (List Nat) :=
  let p' := { p with lastCmd := tExit }
  match net p.IPAddress (encrypt (strBytes data)) with
  | .error e => (p', .error e)
  | .ok res => (p', .ok (decrypt res))

/-- Go: the turn-on payload `{"system":{"set_relay_state":{"state":1}}}`. -/
def setRelayOnCmd : String :=
  "\x7b\"system\":\x7b\"set_relay_state\":\x7b\"state\":1\x7d\x7d\x7d"

/-- Go: the turn-off payload `{"system":{"set_relay_state":{"state":0}}}`. -/
def setRelayOffCmd : String :=
  "\x7b\"system\":\x7b\"set_relay_state\":\x7b\"state\":0\x7d\x7d\x7d"

/-- Function `turnOn` from kasa.go: send the relay-state-1 payload, return the error. -/
def turnOn (net : Net) (t : Nat) (p : Plug) : Plug × Option String :=
  let r := sendCmd net t p setRelayOnCmd
  (r.1, errOf r.2)

/-- Function `turnOff` from kasa.go: send the relay-state-0 payload, return the error. -/
def turnOff (net : Net) (t : Nat) (p : Plug) : Plug × Option String :=
  let r := sendCmd net t p setRelayOffCmd
  (r.1, errOf r.2)

/-- Function `toggle` from kasa.go: if `p.On`, call `turnOff` and set `On := false`;
else call `turnOn` and set `On := true` — in both branches the flip happens
after the call, whatever its error result. -/
def toggle (net : Net) (t : Nat) (p : Plug) : Plug × Option String :=
  if p.On then
    let r := turnOff net t p
    ({ r.1 with On := false }, r.2)
  else
    let r := turnOn net t p
    ({ r.1 with On := true }, r.2)

theorem sendCmd_eq (net : Net) (t : Nat) (p : Plug) (data : String) :
    sendCmd net t p data =
      ({ p with lastCmd := t },
       (net p.IPAddress (encrypt (strBytes data))).map decrypt) := by
  unfold sendCmd
  cases net p.IPAddress (encrypt (strBytes data)) <;> rfl

theorem errOf_map (r : Except String (List Nat)) (f : List Nat → List Nat) :
    errOf (r.map f) = errOf r := by
  cases r <;> rfl

theorem toggle_eq (net : Net) (t : Nat) (p : Plug) :
    toggle net t p =
      ({ p with On := !p.On, lastCmd := t },
       errOf (net p.IPAddress (encrypt (strBytes
         (if p.On then setRelayOffCmd else setRelayOnCmd))))) := by
  cases hOn : p.On <;>
    simp [toggle, turnOn, turnOff, hOn, sendCmd_eq, errOf_map]

/-- C2: `toggle` reads the cached `On` flag; when it is true it issues the
turn-off command and sets `On := false`, otherwise it issues the turn-on
command and sets `On := true`; the flip happens for every network oracle,
in particular whether or not the transport returned an error. -/
theorem C2_toggle (net : Net) (t : Nat) (p : Plug) :
    (toggle net t p).1.On = !p.On ∧
    toggle net t p =
      ({ p with On := !p.On, lastCmd := t },
       errOf (net p.IPAddress (encrypt (strBytes
         (if p.On then setRelayOffCmd else setRelayOnCmd))))) := by
  refine ⟨?_, toggle_eq net t p⟩
  rw [toggle_eq]

/-- C9: a `toggle` and the underlying `sendCmd` leave `IPAddress`,
`TriggerKey`, `Name` and `Model` unchanged; `sendCmd` also leaves `On`
unchanged, so only `On` and `lastCmd` can ever change. -/
theorem C9_toggle_frame (net : Net) (t : Nat) (p : Plug) (data : String) :
    ((toggle net t p).1.IPAddress = p.IPAddress ∧
     (toggle net t p).1.TriggerKey = p.TriggerKey ∧
     (toggle net t p).1.Name = p.Name ∧
     (toggle net t p).1.Model = p.Model) ∧
    ((sendCmd net t p data).1.IPAddress = p.IPAddress ∧
     (sendCmd net t p data).1.TriggerKey = p.TriggerKey ∧
     (sendCmd net t p data).1.Name = p.Name ∧
     (sendCmd net t p data).1.Model = p.Model ∧
     (sendCmd net t p data).1.On = p.On) := by
  rw [toggle_eq, sendCmd_eq]
  exact ⟨⟨rfl, rfl, rfl, rfl⟩, rfl, rfl, rfl, rfl, rfl⟩

/-- The rate-limit step at the top of `sendCmd`, times in milliseconds:
`if time.Since(p.lastCmd) < 500ms { time.Sleep(500ms) }` — the sleep is a
fixed 500 ms, not the remaining part of the interval. -/
def rateDelay (nowMs lastCmdMs : Nat) : Nat :=
  if nowMs - lastCmdMs < 500 then 500 else 0

/-- Wall-clock time at which the network write of a `sendCmd` entered at
`nowMs` happens, given the stored `lastCmd` timestamp. -/
def sendTime (nowMs lastCmdMs : Nat) : Nat := nowMs + rateDelay nowMs lastCmdMs

/-- C3 counterexample: with 300 ms elapsed since `lastCmd` (entering at
1300 ms with `lastCmd` = 1000 ms) the code sleeps the full 500 ms, not the
remaining 500 − 300 = 200 ms the claim states. -/
theorem C3_sleep_counterexample :
    rateDelay 1300 1000 = 500 ∧ 500 - (1300 - 1000) = 200 ∧
    rateDelay 1300 1000 ≠ 500 - (1300 - 1000) := by decide

/-- C3 (amended): consecutive sends to the same device are still separated
by at least 500 ms — if the previous send happened at `send1`, `lastCmd`
was stamped at `tExit1 ≥ send1`, and the next command enters at
`now2 ≥ tExit1`, then its send time is at least `send1 + 500`; but when
less than 500 ms has elapsed the sleep is the full 500 ms (and zero
otherwise), and `lastCmd` is set to the exit time on every path. -/
theorem C3_rate_limit (net : Net) (p : Plug) (data : String)
    (send1 tExit1 now2 : Nat) (h1 : send1 ≤ tExit1) (h2 : tExit1 ≤ now2) :
    send1 + 500 ≤ sendTime now2 tExit1 ∧
    (now2 - tExit1 < 500 → rateDelay now2 tExit1 = 500) ∧
    (500 ≤ now2 - tExit1 → rateDelay now2 tExit1 = 0) ∧
    (sendCmd net tExit1 p data).1.lastCmd = tExit1 := by
  refine ⟨?_, ?_, ?_, by rw [sendCmd_eq]⟩ <;>
    · simp only [sendTime, rateDelay]
      split <;> omega

/-- A network oracle that always fails, for concrete witnesses. -/
def nullNet : Net := fun _ _ => Except.error "dial tcp: unreachable"

/-- A concrete device, for concrete witnesses. -/
def plugA : Plug :=
  { IPAddress := "10.0.0.5", TriggerKey := 49, Model := "", Name := "",
    On := false, lastCmd := 0 }

/-- Witness for C3 (amended) at `send1 = 700`, `tExit1 = 1000`,
`now2 = 1300`. -/
theorem C3_rate_limit_witness :
    700 ≤ 1000 ∧ (1000 : Nat) ≤ 1300 ∧
    (700 + 500 ≤ sendTime 1300 1000 ∧
     (1300 - 1000 < 500 → rateDelay 1300 1000 = 500) ∧
     (500 ≤ 1300 - 1000 → rateDelay 1300 1000 = 0) ∧
     (sendCmd nullNet 1000 plugA setRelayOnCmd).1.lastCmd = 1000) :=
  ⟨by decide, by decide,
   C3_rate_limit nullNet plugA setRelayOnCmd 700 1000 1300 (by decide) (by decide)⟩

/-- Go `strings.Split` for a single-character separator: on the empty
string it yields one empty field, and each separator opens a new field. -/
def splitChar (sep : Char) : List Char → List (List Char)
  | [] => [[]]
  | c :: rest =>
    match splitChar sep rest with
    | [] => [[]]
    | g :: gs => if c = sep then [] :: g :: gs else (c :: g) :: gs

/-- The digit loop of Go `strconv.Atoi`: every remaining character must be
a decimal digit. -/
def digitsVal (acc : Nat) : List Char → Option Nat
  | [] => some acc
  | c :: rest =>
    if c.isDigit then digitsVal (acc * 10 + (c.toNat - 48)) rest else none

/-- The digits-and-range part of Go `strconv.Atoi` after the sign has been
consumed: empty or non-digit input is a syntax error, and the signed value
must fit in int64. -/
def atoiDigits (neg : Bool) (ds : List Char) : Except String Int :=
  match ds with
  | [] => .error "invalid syntax"
  | _ =>
    match digitsVal 0 ds with
    | none => .error "invalid syntax"
    | some v =>
      let n : Int := if neg then -(v : Int) else (v : Int)
      if n < -(2 ^ 63) ∨ (2 : Int) ^ 63 - 1 < n then .error "value out of range"
      else .ok n

/-- Go `strconv.Atoi`: an optional sign followed by decimal digits. -/
def atoi (s : List Char) : Except String Int :=
  match s with
  | '+' :: rest => atoiDigits false rest
  | '-' :: rest => atoiDigits true rest
  | _ => atoiDigits false s

/-- One plug as `processMapping` builds it: address and trigger key set,
every other field zero-valued. -/
def newPlug (ip : List Char) (key : Int) : Plug :=
  { IPAddress := String.mk ip, TriggerKey := key, Model := "", Name := "",
    On := false, lastCmd := 0 }

/-- The loop of `processMapping` over the comma-separated entries.
`IPKeyPair[1]` on an entry with fewer than two colon-separated parts is a
Go index-out-of-range panic, and a failed `Atoi` is `panic(err)`; both kill
the process with nothing returned, modelled as `Except.error`.  Parts of an
entry beyond the second are ignored, as in the source. -/
def processEntries : List (List Char) → Except String (List Plug)
  | [] => .ok []
  | entry :: rest =>
    match splitChar ':' entry with
    | ip :: second :: _ =>
      match atoi second with
      | .error e => .error e
      | .ok k =>
        match processEntries rest with
        | .error e => .error e
        | .ok ps => .ok (newPlug ip k :: ps)
    | _ => .error "index out of range"

/-- Function `processMapping` from kasa.go. -/
def processMapping (m : String) : Except String (List Plug) :=
  processEntries (splitChar ',' m.data)

/-- An entry on which the Go loop dies: fewer than two colon-separated
parts (index out of range) or a second part rejected by `Atoi`. -/
def entryFails (entry : List Char) : Bool :=
  match splitChar ':' entry with
  | _ :: second :: _ =>
    match atoi second with
    | .ok _ => false
    | .error _ => true
  | _ => true

/-- C8: parsing `"10.0.0.5:49,10.0.0.6:50"` yields exactly two devices, in
input order, with addresses `10.0.0.5` / `10.0.0.6` and trigger keys
49 / 50. -/
theorem C8_parse_success :
    processMapping "10.0.0.5:49,10.0.0.6:50" =
      .ok [{ IPAddress := "10.0.0.5", TriggerKey := 49, Model := "",
             Name := "", On := false, lastCmd := 0 },
           { IPAddress := "10.0.0.6", TriggerKey := 50, Model := "",
             Name := "", On := false, lastCmd := 0 }] := by rfl

/-- C4 counterexample: the entry `"10.0.0.5:49:extra"` does not split into
exactly two parts (it splits into three), yet `processMapping` accepts it
and returns a device list instead of a configuration error. -/
theorem C4_counterexample :
    (splitChar ':' "10.0.0.5:49:extra".data).length = 3 ∧
    processMapping "10.0.0.5:49:extra" =
      .ok [{ IPAddress := "10.0.0.5", TriggerKey := 49, Model := "",
             Name := "", On := false, lastCmd := 0 }] := ⟨rfl, rfl⟩

theorem processEntries_head_fail (entry : List Char) (rest : List (List Char))
    (h : entryFails entry = true) :
    ∃ e, processEntries (entry :: rest) = .error e := by
  unfold entryFails at h
  cases hsp : splitChar ':' entry with
  | nil => exact ⟨"index out of range", by simp [processEntries, hsp]⟩
  | cons ip tl =>
    cases tl with
    | nil => exact ⟨"index out of range", by simp [processEntries, hsp]⟩
    | cons second more =>
      simp only [hsp] at h
      cases hato : atoi second with
      | error e => exact ⟨e, by simp [processEntries, hsp, hato]⟩
      | ok v => simp [hato] at h

theorem processEntries_fails (entries : List (List Char))
    (h : ∃ en ∈ entries, entryFails en = true) :
    ∃ e, processEntries entries = .error e := by
  induction entries with
  | nil => obtain ⟨en, hmem, _⟩ := h; cases hmem
  | cons entry rest ih =>
    obtain ⟨en, hmem, hfail⟩ := h
    rcases List.mem_cons.mp hmem with heq | hmem'
    · exact processEntries_head_fail entry rest (heq ▸ hfail)
    · obtain ⟨e, he⟩ := ih ⟨en, hmem', hfail⟩
      cases hsp : splitChar ':' entry with
      | nil => exact ⟨"index out of range", by simp [processEntries, hsp]⟩
      | cons ip tl =>
        cases tl with
        | nil => exact ⟨"index out of range", by simp [processEntries, hsp]⟩
        | cons second more =>
          cases hato : atoi second with
          | error e2 => exact ⟨e2, by simp [processEntries, hsp, hato]⟩
          | ok v => exact ⟨e, by simp [processEntries, hsp, hato, he]⟩

/-- C4 (amended): every mapping string containing an entry with fewer than
two colon-separated parts, or whose second part does not parse as an
integer, makes `processMapping` fail (a panic in Go, modelled as an error)
with no device list; entries with extra colon-separated parts, however, are
accepted with the extras ignored. -/
theorem C4_parse_malformed (m : String)
    (h : ∃ en ∈ splitChar ',' m.data, entryFails en = true) :
    ∃ e, processMapping m = .error e := by
  unfold processMapping
  exact processEntries_fails _ h

/-- Witness for C4 (amended) at the spec's own failing input
`"10.0.0.5:abc"`. -/
theorem C4_parse_malformed_witness :
    (∃ en ∈ splitChar ',' "10.0.0.5:abc".data, entryFails en = true) ∧
    ∃ e, processMapping "10.0.0.5:abc" = .error e :=
  ⟨by decide, C4_parse_malformed "10.0.0.5:abc" (by decide)⟩

/-- The part of the `get_sysinfo` JSON envelope that `getSystemInfo`
reads. -/
structure SysInfo where
  Alias : String
  Model : String
  RelayState : Int
  deriving DecidableEq, Repr

/-- Function `int2bool` from kasa.go: `r == 1`. -/
def int2bool (r : Int) : Bool := r == 1

/-- Oracle for `plug.systemInfo()`: the sendCmd exchange plus JSON
decoding, yielding either a Go error or the parsed envelope. -/
abbrev SysQuery := Plug → Except String SysInfo

/-- Function `getSystemInfo` from kasa.go.  The Go function returns nothing; its
observable effects are the mutated plugs and the `fmt` output, so the
embedding returns the updated list, the printed lines, and the trace of
device addresses actually queried.  On the first failing query it prints
the error and returns at once, leaving that device and all later ones
untouched and unqueried. -/
def getSystemInfo (query : SysQuery) : List Plug → List Plug × List String × List String
  | [] => ([], [], [])
  | p :: rest =>
    match query p with
    | .error e => (p :: rest, [e], [p.IPAddress])
    | .ok i =>
      let p' := { p with Name := i.Alias, Model := i.Model, On := int2bool i.RelayState }
      let r := getSystemInfo query rest
      (p' :: r.1, ("Found plug: " ++ p'.Name) :: r.2.1, p.IPAddress :: r.2.2)

/-- Operation `Initialize` as the spec words it (refinement model for C5 only):
sequentially query each device in list order, populate it, and surface the
first failure to the caller as an error return. -/
def InitializeSpec (query : SysQuery) : List Plug → Except String (List Plug)
  | [] => .ok []
  | p :: rest =>
    match query p with
    | .error e => .error e
    | .ok i =>
      match InitializeSpec query rest with
      | .error e => .error e
      | .ok ps =>
        .ok ({ p with Name := i.Alias, Model := i.Model,
                      On := int2bool i.RelayState } :: ps)

/-- A second and a third concrete device, for concrete scenarios. -/
def plugB : Plug :=
  { IPAddress := "10.0.0.6", TriggerKey := 50, Model := "", Name := "",
    On := false, lastCmd := 0 }

def plugC : Plug :=
  { IPAddress := "10.0.0.7", TriggerKey := 51, Model := "", Name := "",
    On := false, lastCmd := 0 }

/-- A query oracle that fails exactly on address `10.0.0.6`. -/
def failQuery : SysQuery := fun p =>
  if p.IPAddress = "10.0.0.6" then Except.error "connecting to plug: timeout"
  else Except.ok { Alias := "desk", Model := "HS103", RelayState := 1 }

/-- C5 counterexample: with the second of three devices failing, the code's
`getSystemInfo` returns the plug list and printed lines with no error value
— the failure shows up only in the printed output, the function has no
error result and `main` continues — whereas the spec-worded
`InitializeSpec` surfaces the same failure to the caller as an error
return. -/
theorem C5_counterexample :
    getSystemInfo failQuery [plugA, plugB, plugC] =
      ([{ plugA with Name := "desk", Model := "HS103", On := true }, plugB, plugC],
       ["Found plug: desk", "connecting to plug: timeout"],
       ["10.0.0.5", "10.0.0.6"]) ∧
    InitializeSpec failQuery [plugA, plugB, plugC] =
      .error "connecting to plug: timeout" :=
  ⟨rfl, rfl⟩

/-- C5 (amended): `getSystemInfo` queries the devices in list order and the
first failure aborts the rest: with three devices where the first succeeds
and the second fails, the first is populated, the second and third stay
un-populated, the third is never queried, and the failure is only printed —
the function returns no error value to its caller, which proceeds
regardless. -/
theorem C5_init_fail_fast (query : SysQuery) (p1 p2 p3 : Plug)
    (i1 : SysInfo) (e : String)
    (h1 : query p1 = .ok i1) (h2 : query p2 = .error e) :
    getSystemInfo query [p1, p2, p3] =
      ([{ p1 with Name := i1.Alias, Model := i1.Model,
                  On := int2bool i1.RelayState }, p2, p3],
       ["Found plug: " ++ i1.Alias, e],
       [p1.IPAddress, p2.IPAddress]) := by
  simp [getSystemInfo, h1, h2]

/-- Witness for C5 (amended) at the concrete three-device scenario. -/
theorem C5_init_fail_fast_witness :
    failQuery plugA = .ok { Alias := "desk", Model := "HS103", RelayState := 1 } ∧
    failQuery plugB = .error "connecting to plug: timeout" ∧
    getSystemInfo failQuery [plugA, plugB, plugC] =
      ([{ plugA with Name := "desk", Model := "HS103",
                     On := int2bool (1 : Int) }, plugB, plugC],
       ["Found plug: desk", "connecting to plug: timeout"],
       [plugA.IPAddress, plugB.IPAddress]) :=
  ⟨rfl, rfl,
   C5_init_fail_fast failQuery plugA plugB plugC
     { Alias := "desk", Model := "HS103", RelayState := 1 }
     "connecting to plug: timeout" rfl rfl⟩

/-- A termbox event: `EvType` stands for the Go field `Type`, the event
type (`term.EventKey = 0`), and `Key` is the `uint16` key code
(`term.KeyCtrlC = 3`). -/
structure Event where
  EvType : Nat
  Key : Nat
  deriving DecidableEq, Repr

/-- Go `term.Key(plug.TriggerKey)`: conversion of a Go `int` to the
`uint16`-backed key type, i.e. two's-complement truncation mod 2^16. -/
def goKey (n : Int) : Nat := (n % 65536).toNat

/-- The `TriggerKey`/`IPAddress` projection of a plug: everything the
dispatch loop's matching and trace depend on, and exactly what `toggle`
leaves unchanged. -/
def plugSig (p : Plug) : Int × String := (p.TriggerKey, p.IPAddress)

/-- The inner `for _, plug := range plugs` of the dispatch loop in `main`:
toggle every plug whose converted trigger key equals the event's key,
returning the updated plugs and the trace of toggled addresses; a toggle
error is printed and the range loop continues. -/
def dispatchKey (net : Net) (t : Nat) (k : Nat) : List Plug → List Plug × List String
  | [] => ([], [])
  | p :: rest =>
    if goKey p.TriggerKey = k then
      let p' := (toggle net t p).1
      let r := dispatchKey net t k rest
      (p' :: r.1, p.IPAddress :: r.2)
    else
      let r := dispatchKey net t k rest
      (p :: r.1, r.2)

/-- The `for { event := term.PollEvent() ... }` loop of `main`, run on a
finite event list: a non-key event is skipped (`continue`), Ctrl-C returns
from `main`, and any other key event runs the inner dispatch over all
plugs. -/
def eventLoop (net : Net) (t : Nat) : List Plug → List Event → List Plug × List String
  | plugs, [] => (plugs, [])
  | plugs, e :: rest =>
    if e.EvType ≠ 0 then eventLoop net t plugs rest
    else if e.Key = 3 then (plugs, [])
    else
      let d := dispatchKey net t e.Key plugs
      let r := eventLoop net t d.1 rest
      (r.1, d.2 ++ r.2)

/-- The toggle trace as the spec words it: process events until the first
interrupt, ignore non-key events, and for each key event toggle exactly
the devices whose trigger key equals the event's key, in device order. -/
def specToggled (plugs : List Plug) : List Event → List String
  | [] => []
  | e :: rest =>
    if e.EvType ≠ 0 then specToggled plugs rest
    else if e.Key = 3 then []
    else (plugs.filter (fun p => decide (p.TriggerKey = (e.Key : Int)))).map Plug.IPAddress
           ++ specToggled plugs rest

theorem goKey_eq_iff (n : Int) (h0 : 0 ≤ n) (h1 : n < 65536) (k : Nat) :
    goKey n = k ↔ n = (k : Int) := by
  unfold goKey
  omega

theorem filterSig (f : Int → Bool) (l : List Plug) :
    (l.filter (fun p => f p.TriggerKey)).map Plug.IPAddress
      = ((l.map plugSig).filter (fun s => f s.1)).map Prod.snd := by
  induction l with
  | nil => rfl
  | cons p rest ih =>
    by_cases h : f p.TriggerKey <;> simp [plugSig, h, ih]

theorem specToggled_congr (l₁ l₂ : List Plug)
    (hsig : l₁.map plugSig = l₂.map plugSig) :
    ∀ events, specToggled l₁ events = specToggled l₂ events := by
  intro events
  induction events with
  | nil => rfl
  | cons e rest ih =>
    by_cases hty : e.EvType = 0
    · by_cases hk : e.Key = 3
      · simp [specToggled, hty, hk]
      · have h1 := filterSig (fun n => decide (n = (e.Key : Int))) l₁
        have h2 := filterSig (fun n => decide (n = (e.Key : Int))) l₂
        simp only [specToggled, hty, hk]
        simp [h1, h2, hsig, ih]
    · simp [specToggled, hty, ih]

theorem dispatchKey_spec (net : Net) (t : Nat) (k : Nat) (plugs : List Plug) :
    (dispatchKey net t k plugs).2
      = (plugs.filter (fun p => decide (goKey p.TriggerKey = k))).map Plug.IPAddress ∧
    (dispatchKey net t k plugs).1.map plugSig = plugs.map plugSig := by
  induction plugs with
  | nil => exact ⟨rfl, rfl⟩
  | cons p rest ih =>
    by_cases h : goKey p.TriggerKey = k
    · constructor <;> simp [dispatchKey, h, ih.1, ih.2, plugSig, toggle_eq]
    · constructor <;> simp [dispatchKey, h, ih.1, ih.2]

theorem plugSig_keys (l₁ l₂ : List Plug)
    (hsig : l₁.map plugSig = l₂.map plugSig)
    (h : ∀ p ∈ l₂, 0 ≤ p.TriggerKey ∧ p.TriggerKey < 65536) :
    ∀ p ∈ l₁, 0 ≤ p.TriggerKey ∧ p.TriggerKey < 65536 := by
  intro p hp
  have hmem : plugSig p ∈ l₂.map plugSig := by
    rw [← hsig]
    exact List.mem_map_of_mem _ hp
  obtain ⟨q, hq, hpq⟩ := List.mem_map.mp hmem
  have hk : q.TriggerKey = p.TriggerKey := congrArg Prod.fst hpq
  exact hk ▸ h q hq

/-- C7: over any finite event sequence, as long as every configured trigger
key is in the `uint16` range, the dispatch loop's toggle trace is exactly
the spec one — events after the first Ctrl-C cause nothing, non-key events
cause nothing, and each other key event toggles precisely the devices
whose trigger key equals the event's key. -/
theorem C7_dispatch_loop (net : Net) (t : Nat) (events : List Event) :
    ∀ plugs : List Plug,
      (∀ p ∈ plugs, 0 ≤ p.TriggerKey ∧ p.TriggerKey < 65536) →
      (eventLoop net t plugs events).2 = specToggled plugs events := by
  induction events with
  | nil => intro plugs _; rfl
  | cons e rest ih =>
    intro plugs hkeys
    by_cases hty : e.EvType = 0
    · by_cases hk : e.Key = 3
      · simp [eventLoop, specToggled, hty, hk]
      · have hd := dispatchKey_spec net t e.Key plugs
        have hkeys' := plugSig_keys _ _ hd.2 hkeys
        have hih := ih _ hkeys'
        have hcong := specToggled_congr _ _ hd.2 rest
        have hfil : plugs.filter (fun p => decide (goKey p.TriggerKey = e.Key))
            = plugs.filter (fun p => decide (p.TriggerKey = (e.Key : Int))) := by
          apply List.filter_congr
          intro p hp
          exact decide_eq_decide.mpr
            (goKey_eq_iff p.TriggerKey (hkeys p hp).1 (hkeys p hp).2 e.Key)
        simp only [eventLoop, specToggled, hty, hk]
        simp [hd.1, hfil, hih, hcong]
    · simp [eventLoop, specToggled, hty, ih _ hkeys]

/-- Witness for C7 on two concrete devices and a concrete event sequence:
a key event matching device A, a non-key event, a key event matching no
device, Ctrl-C, then a key event that must be dead. -/
theorem C7_dispatch_loop_witness :
    (∀ p ∈ [plugA, plugB], 0 ≤ p.TriggerKey ∧ p.TriggerKey < 65536) ∧
    (eventLoop nullNet 0 [plugA, plugB]
        [⟨0, 49⟩, ⟨2, 50⟩, ⟨0, 60⟩, ⟨0, 3⟩, ⟨0, 50⟩]).2
      = specToggled [plugA, plugB] [⟨0, 49⟩, ⟨2, 50⟩, ⟨0, 60⟩, ⟨0, 3⟩, ⟨0, 50⟩] :=
  ⟨by decide,
   C7_dispatch_loop nullNet 0 [⟨0, 49⟩, ⟨2, 50⟩, ⟨0, 60⟩, ⟨0, 3⟩, ⟨0, 50⟩]
     [plugA, plugB] (by decide)⟩

end Kasa
